import Mathlib

/-!
Verification of the MatrixOS device-driver abstraction subsystem.

We shallowly embed the display-driver reference implementation
(`matrixos/devices/display/macos_window.py`), the abstract driver contracts
(`matrixos/devices/base.py`) and the driver selector described by the design
document.

Modelling conventions:
* Python RGB tuples become `Color := Nat × Nat × Nat`.
* The process-wide pygame module state (whether `pygame.init()` has run, the
  window surface created by `set_mode`, the window caption and the pending
  event queue) becomes an explicit `PyState` record threaded through every
  driver method, since each method executes against that ambient state.
* Fallible methods (those whose Python body can raise `TypeError`/`IndexError`
  when indexing the buffer) return `Option`; `none` models an escaped
  exception.  `MacOSWindowDriver.initialize` is total because its whole body
  sits inside `try/except`.
* The one expected external failure of initialization — pygame cannot create
  the window, i.e. `pygame.display.set_mode` raises (`pygame.init()` itself
  reports per-module failures through its return value rather than by
  raising) — is modelled by the boolean argument `setModeOk`.
-/

/-- An RGB pixel colour, as the Python 3-tuple of channel values. -/
abbrev Color : Type := Nat × Nat × Nat

/-- The colour black `(0, 0, 0)`. -/
def black : Color := (0, 0, 0)

/-- A pygame event sitting in the module's event queue. -/
inductive PyEvent : Type where
  | quit : PyEvent
  | key (code : Nat) : PyEvent
  | other (code : Nat) : PyEvent
deriving DecidableEq, Repr

/-- The process-wide pygame module state.

`inited` is `pygame.get_init()`; `display` is the window surface created by
`pygame.display.set_mode` (`none` when no window exists), holding the pixel
contents currently visible; `caption` is the window caption; `events` is the
pending event queue in arrival order. -/
structure PyState : Type where
  inited : Bool
  display : Option (List (List Color))
  caption : Option String
  events : List PyEvent
deriving DecidableEq, Repr

/-- A pygame state in which pygame was never initialized: no window, no
pending events. -/
def pyStart : PyState :=
  { inited := false, display := none, caption := none, events := [] }

/-- The state of a `MacOSWindowDriver` instance: the fields assigned by
`__init__` (via the `DisplayDriver` base constructor).  `screen` is the
surface handle returned by `set_mode` (`none` until then), `buffer` is the
frame buffer (`None` until `initialize` creates it). -/
structure MacOSWindowDriver : Type where
  name : String
  platform : Option String
  width : Nat
  height : Nat
  scale : Nat
  window_width : Nat
  window_height : Nat
  screen : Option Unit
  buffer : Option (List (List Color))
deriving DecidableEq, Repr

/-- `MacOSWindowDriver.__init__(width, height, scale)`: the base constructor
stores the dimensions, then the subclass sets its name, platform tag, scale
and window dimensions; `screen` and `buffer` start as `None`. -/
def MacOSWindowDriver.init (width height scale : Nat) : MacOSWindowDriver :=
  { name := "macOS Window (Pygame)"
  , platform := some "macos"
  , width := width
  , height := height
  , scale := scale
  , window_width := width * scale
  , window_height := height * scale
  , screen := none
  , buffer := none }

/-- Reading the frame buffer at column `x`, row `y` (Python `buffer[y][x]`):
`none` when the access would be out of range. -/
def cellRead (b : List (List Color)) (x y : Nat) : Option Color :=
  (b[y]?).bind fun row => row[x]?

/-- The inner loop of `clear` on one row: `for x in range(n): row[x] = (0,0,0)`,
expressed by recursion on the loop counter (iteration `n` performs `set n`). -/
def clearRowAux (row : List Color) : Nat → List Color
  | 0 => row
  | n + 1 => (clearRowAux row n).set n black

/-- The nested loops of `clear`:
`for y in range(n): for x in range(w): buffer[y][x] = (0,0,0)`.
Iteration `y` replaces row `y` of the current buffer by its cleared form. -/
def clearBufAux (b : List (List Color)) (w : Nat) : Nat → List (List Color)
  | 0 => b
  | n + 1 =>
      let b' := clearBufAux b w n
      b'.set n (clearRowAux (b'.getD n []) w)

/-- Whether the nested loops `for y in range(h): for x in range(w):
buffer[y][x] ...` raise on this buffer.  The body (and hence any buffer
access) only runs when both ranges are non-empty; it raises a `TypeError`
when the buffer is still `None`, and an `IndexError` when a visited row
index or column index is out of range. -/
def bufAccessFails (w h : Nat) (buf : Option (List (List Color))) : Bool :=
  decide (0 < w) && decide (0 < h) &&
    (match buf with
     | none => true
     | some b => decide (b.length < h) || (b.take h).any fun r => decide (r.length < w))

/-- The window surface produced by drawing every logical pixel of `b` as a
`s × s` rectangle (the drawing loop of `show`). -/
def scaleFrame (s : Nat) (b : List (List Color)) : List (List Color) :=
  (b.map fun row => row.flatMap fun c => List.replicate s c).flatMap fun r => List.replicate s r

/-- `MacOSWindowDriver.set_pixel(x, y, color)`: writes `color` into
`buffer[y][x]` when `0 <= x < width and 0 <= y < height`, otherwise does
nothing.  Inside the guard, indexing a `None` buffer or a too-short row
would raise (`none`). -/
def MacOSWindowDriver.set_pixel (d : MacOSWindowDriver) (st : PyState)
    (x y : Int) (c : Color) : Option (MacOSWindowDriver × PyState) :=
  if 0 ≤ x ∧ x < (d.width : Int) ∧ 0 ≤ y ∧ y < (d.height : Int) then
    match d.buffer with
    | none => none
    | some b =>
        match b[y.toNat]? with
        | none => none
        | some row =>
            if x.toNat < row.length then
              some ({ d with buffer := some (b.set y.toNat (row.set x.toNat c)) }, st)
            else none
  else some (d, st)

/-- `MacOSWindowDriver.clear()`: the nested loops set every cell
`buffer[y][x]` with `y < height`, `x < width` to black; the pygame state is
not touched.  A buffer too small for the loop ranges raises (`none`). -/
def MacOSWindowDriver.clear (d : MacOSWindowDriver) (st : PyState) :
    Option (MacOSWindowDriver × PyState) :=
  if bufAccessFails d.width d.height d.buffer then none
  else some ({ d with buffer := d.buffer.map fun b => clearBufAux b d.width d.height }, st)

/-- `MacOSWindowDriver.show()`: returns immediately when `screen is None`;
otherwise `pygame.event.get()` drains the whole pending event queue (the
loop body deliberately ignores even `QUIT` events), then the drawing loop
reads every buffer cell and draws it as a scaled rectangle, and
`pygame.display.flip()` publishes the drawn frame to the window surface. -/
def MacOSWindowDriver.show (d : MacOSWindowDriver) (st : PyState) :
    Option (MacOSWindowDriver × PyState) :=
  match d.screen with
  | none => some (d, st)
  | some _ =>
      let st1 : PyState := { st with events := [] }
      if bufAccessFails d.width d.height d.buffer then none
      else
        some (d, { st1 with display := some (scaleFrame d.scale (d.buffer.getD [])) })

/-- `MacOSWindowDriver.cleanup()`: `if pygame.get_init(): pygame.quit()`.
Quitting pygame uninitializes the module, destroying the window, caption and
event queue; the driver's own fields are not reset. -/
def MacOSWindowDriver.cleanup (d : MacOSWindowDriver) (st : PyState) :
    MacOSWindowDriver × PyState :=
  if st.inited then
    (d, { inited := false, display := none, caption := none, events := [] })
  else (d, st)

/-- `MacOSWindowDriver.initialize()`: calls `pygame.init()`, creates the
window via `set_mode` and sets the caption, builds the frame buffer as the
comprehension `[[(0,0,0) for _ in range(width)] for _ in range(height)]`,
then calls `self.clear()` and `self.show()` and returns `True`; any raise is
caught by the surrounding `try/except`, which returns `False`.  `setModeOk`
says whether `pygame.display.set_mode` succeeds (the expected failure mode:
no usable video device). -/
def MacOSWindowDriver.initialize (d : MacOSWindowDriver) (st : PyState)
    (setModeOk : Bool) : MacOSWindowDriver × PyState × Bool :=
  let st1 : PyState := { st with inited := true }
  if setModeOk then
    let st2 : PyState :=
      { st1 with
        display := some (List.replicate d.window_height (List.replicate d.window_width black))
      , caption := some "MatrixOS - ZX Spectrum Edition" }
    let d2 : MacOSWindowDriver :=
      { d with screen := some ()
             , buffer := some (List.replicate d.height (List.replicate d.width black)) }
    match MacOSWindowDriver.clear d2 st2 with
    | none => (d2, st2, false)
    | some (d3, st3) =>
        match MacOSWindowDriver.show d3 st3 with
        | none => (d3, st3, false)
        | some (d4, st4) => (d4, st4, true)
  else (d, st1, false)

/-- `MacOSWindowDriver.is_available()`: `try: import pygame` — true exactly
when the pygame package is importable in the running environment. -/
def MacOSWindowDriver.is_available (pygameImportable : Bool) : Bool :=
  pygameImportable

/-- `MacOSWindowDriver.get_priority()`. -/
def MacOSWindowDriver.get_priority : Nat := 50

/-- `MacOSWindowDriver.get_platform_preference()`. -/
def MacOSWindowDriver.get_platform_preference : Option String := some "macos"

/-- `DisplayDriver.is_available()` default (base.py). -/
def DisplayDriver.is_available : Bool := true

/-- `DisplayDriver.get_priority()` default (base.py). -/
def DisplayDriver.get_priority : Nat := 0

/-- `DisplayDriver.get_platform_preference()` default (base.py). -/
def DisplayDriver.get_platform_preference : Option String := none

/-- The class-level (static) capability-query methods defined on the
`DisplayDriver` abstract base class in `base.py`, by name. -/
def DisplayDriver.staticCapabilityQueries : List String :=
  ["is_available", "get_priority", "get_platform_preference"]

/-- `InputDriver.is_available()` default (base.py). -/
def InputDriver.is_available : Bool := true

/-- `InputDriver.requires_pairing()` default (base.py). -/
def InputDriver.requires_pairing : Bool := false

/-- `InputDriver.get_device_class()` default (base.py). -/
def InputDriver.get_device_class : String := "generic"

/-- `InputDriver.get_priority()` default (base.py). -/
def InputDriver.get_priority : Nat := 0

/-- The class-level (static) capability-query methods defined on the
`InputDriver` abstract base class in `base.py`, by name, in declaration
order. -/
def InputDriver.staticCapabilityQueries : List String :=
  ["is_available", "requires_pairing", "get_device_class", "get_priority"]

/-- A driver candidate's static descriptor, as seen by the selector:
display name, availability probe result, platform preference and priority. -/
structure Candidate : Type where
  name : String
  available : Bool
  platform : Option String
  priority : Nat
deriving DecidableEq, Repr

/-- Modelled from the spec: the ranking tier of a candidate for a target
platform (the driver registry and selector are not part of the shown source;
only the design document describes them).  Candidates whose platform
preference equals the target rank strictly above platform-agnostic
candidates, which rank strictly above candidates preferring a different
platform (the spec's scenario: with target "linux", a priority-10 agnostic
candidate beats a priority-50 "macos"-preferring one).  Without a target,
platform tags neither help nor hurt. -/
def tier (target : Option String) (c : Candidate) : Nat :=
  match c.platform with
  | none => 1
  | some p =>
      match target with
      | some t => if p = t then 0 else 2
      | none => 1

/-- Modelled from the spec: strict ranking between candidates — a lower tier
wins outright; within a tier a strictly higher priority wins. -/
def better (target : Option String) (a b : Candidate) : Prop :=
  tier target a < tier target b ∨
    (tier target a = tier target b ∧ b.priority < a.priority)

instance (target : Option String) (a b : Candidate) : Decidable (better target a b) :=
  inferInstanceAs (Decidable (_ ∨ _))

/-- Modelled from the spec: the selection algorithm of §4.4 — filter the
candidates to the available ones, then return the first-declared candidate
that no other available candidate outranks (first registered wins on ties,
for determinism). -/
def selectDriver (target : Option String) (cands : List Candidate) : Option Candidate :=
  let avail := cands.filter fun c => c.available
  avail.find? fun c => avail.all fun d => ! decide (better target d c)

/-- The selector-facing descriptor of `MacOSWindowDriver`, with its
availability probe result supplied by the environment. -/
def macCandidate (avail : Bool) : Candidate :=
  { name := "macOS Window (Pygame)"
  , available := avail
  , platform := MacOSWindowDriver.get_platform_preference
  , priority := MacOSWindowDriver.get_priority }

theorem clearRowAux_length (row : List Color) (n : Nat) :
    (clearRowAux row n).length = row.length := by
  induction n with
  | zero => rfl
  | succ n ih => simpa [clearRowAux] using ih

theorem clearRowAux_getElem? (row : List Color) (n i : Nat) :
    (clearRowAux row n)[i]? =
      if i < n ∧ i < row.length then some black else row[i]? := by
  induction n with
  | zero => simp [clearRowAux]
  | succ n ih =>
    simp only [clearRowAux, List.getElem?_set, clearRowAux_length, ih]
    by_cases h1 : n = i
    · subst h1
      by_cases h2 : n < row.length
      · simp [h2, Nat.lt_succ_self]
      · simp [h2, List.getElem?_eq_none (Nat.le_of_not_lt h2)]
    · have hiff : (i < n + 1 ∧ i < row.length) ↔ (i < n ∧ i < row.length) := by omega
      simp [h1, hiff]

theorem clearRowAux_eq_replicate (row : List Color) (w : Nat) (h : row.length = w) :
    clearRowAux row w = List.replicate w black := by
  apply List.ext_getElem?
  intro i
  rw [clearRowAux_getElem?]
  by_cases hi : i < w
  · simp [hi, h, List.getElem?_replicate]
  · simp [hi, List.getElem?_replicate,
      List.getElem?_eq_none (h ▸ Nat.le_of_not_lt hi)]

theorem clearBufAux_length (b : List (List Color)) (w n : Nat) :
    (clearBufAux b w n).length = b.length := by
  induction n with
  | zero => rfl
  | succ n ih => simpa [clearBufAux] using ih

theorem clearBufAux_getElem? (b : List (List Color)) (w n j : Nat) :
    (clearBufAux b w n)[j]? =
      if j < n ∧ j < b.length then (b[j]?).map (fun r => clearRowAux r w)
      else b[j]? := by
  induction n with
  | zero => simp [clearBufAux]
  | succ n ih =>
    simp only [clearBufAux, List.getElem?_set, clearBufAux_length]
    by_cases h1 : n = j
    · subst h1
      by_cases h2 : n < b.length
      · obtain ⟨r, hr⟩ : ∃ r, b[n]? = some r :=
          ⟨b[n], List.getElem?_eq_getElem h2⟩
        simp [h2, Nat.lt_succ_self, ih, hr]
      · simp [h2, List.getElem?_eq_none (Nat.le_of_not_lt h2)]
    · have hiff : (j < n + 1 ∧ j < b.length) ↔ (j < n ∧ j < b.length) := by omega
      simp [h1, hiff, ih]

theorem clearBufAux_eq_replicate (b : List (List Color)) (w h : Nat)
    (hlen : b.length = h) (hrows : ∀ r ∈ b, r.length = w) :
    clearBufAux b w h = List.replicate h (List.replicate w black) := by
  apply List.ext_getElem?
  intro j
  rw [clearBufAux_getElem?]
  by_cases hj : j < h
  · have hj' : j < b.length := by omega
    have hr : b[j]? = some b[j] := List.getElem?_eq_getElem hj'
    have hmem : b[j] ∈ b := List.getElem_mem hj'
    simp [hj, hj', hr, clearRowAux_eq_replicate _ w (hrows _ hmem),
      List.getElem?_replicate]
  · have : b.length ≤ j := by omega
    simp [hj, List.getElem?_eq_none this, List.getElem?_replicate]

theorem cellRead_replicate (w h i j : Nat) (hi : i < w) (hj : j < h) :
    cellRead (List.replicate h (List.replicate w black)) i j = some black := by
  simp [cellRead, List.getElem?_replicate, hi, hj]

/-- A well-formed `height × width` buffer never makes the nested loops
raise. -/
theorem bufAccessFails_of_dims (b : List (List Color)) (w h : Nat)
    (hlen : b.length = h) (hrows : ∀ r ∈ b, r.length = w) :
    bufAccessFails w h (some b) = false := by
  have h1 : decide (b.length < h) = false := by simp [hlen]
  have h2 : (b.take h).any (fun r => decide (r.length < w)) = false := by
    rw [List.any_eq_false]
    intro r hr
    have hm : r ∈ b := List.mem_of_mem_take hr
    simp only [hrows r hm, decide_eq_true_eq]
    omega
  simp [bufAccessFails, h1, h2]

/-- On a well-formed `height × width` buffer, `clear` raises nothing and
replaces the buffer by all-black cells, touching neither the other driver
fields nor the pygame state. -/
theorem clear_eq_of_dims (d : MacOSWindowDriver) (st : PyState)
    (b : List (List Color)) (hb : d.buffer = some b)
    (hlen : b.length = d.height) (hrows : ∀ r ∈ b, r.length = d.width) :
    MacOSWindowDriver.clear d st =
      some ({ d with
        buffer := some (List.replicate d.height (List.replicate d.width black)) }, st) := by
  unfold MacOSWindowDriver.clear
  rw [hb, bufAccessFails_of_dims b d.width d.height hlen hrows]
  simp [clearBufAux_eq_replicate b d.width d.height hlen hrows]

/-- On a ready driver (window created, well-formed buffer), `show` raises
nothing, leaves the driver untouched, drains the event queue and publishes
the scaled buffer to the window surface. -/
theorem show_eq_of_dims (d : MacOSWindowDriver) (st : PyState)
    (hs : d.screen = some ())
    (b : List (List Color)) (hb : d.buffer = some b)
    (hlen : b.length = d.height) (hrows : ∀ r ∈ b, r.length = d.width) :
    MacOSWindowDriver.show d st =
      some (d, { st with events := []
                       , display := some (scaleFrame d.scale b) }) := by
  unfold MacOSWindowDriver.show
  rw [hs, hb, bufAccessFails_of_dims b d.width d.height hlen hrows]
  simp

/-- C1: on a driver whose frame buffer is a `height × width` grid,
`set_pixel(x, y, c)` with `0 ≤ x < width` and `0 ≤ y < height` writes `c`
into the buffer at `(x, y)` — reading that cell afterwards returns `c` — and
leaves every other cell unchanged; with out-of-range `(x, y)` it is a silent
no-op: it raises no error and returns the driver (hence every cell) and the
pygame state unchanged. -/
theorem set_pixel_in_range_writes_out_of_range_noop
    (d : MacOSWindowDriver) (st : PyState)
    (b : List (List Color)) (hb : d.buffer = some b)
    (hlen : b.length = d.height) (hrows : ∀ r ∈ b, r.length = d.width)
    (x y : Int) (c : Color) :
    ((0 ≤ x ∧ x < (d.width : Int) ∧ 0 ≤ y ∧ y < (d.height : Int)) →
      ∃ b', MacOSWindowDriver.set_pixel d st x y c =
              some ({ d with buffer := some b' }, st) ∧
        cellRead b' x.toNat y.toNat = some c ∧
        ∀ i j : Nat, ¬ (i = x.toNat ∧ j = y.toNat) →
          cellRead b' i j = cellRead b i j) ∧
    (¬ (0 ≤ x ∧ x < (d.width : Int) ∧ 0 ≤ y ∧ y < (d.height : Int)) →
      MacOSWindowDriver.set_pixel d st x y c = some (d, st)) := by
  constructor
  · rintro ⟨hx0, hxw, hy0, hyh⟩
    have hyn : y.toNat < b.length := by omega
    have hrowget : b[y.toNat]? = some b[y.toNat] := List.getElem?_eq_getElem hyn
    have hmem : b[y.toNat] ∈ b := List.getElem_mem hyn
    have hxl : x.toNat < b[y.toNat].length := by rw [hrows _ hmem]; omega
    refine ⟨b.set y.toNat (b[y.toNat].set x.toNat c), ?_, ?_, ?_⟩
    · unfold MacOSWindowDriver.set_pixel
      rw [if_pos ⟨hx0, hxw, hy0, hyh⟩, hb]
      simp [hrowget, hxl]
    · simp [cellRead, List.getElem?_set_self hyn, List.getElem?_set_self hxl]
    · intro i j hij
      by_cases hj : j = y.toNat
      · subst hj
        have hi : x.toNat ≠ i := fun h => hij ⟨h.symm, rfl⟩
        simp [cellRead, List.getElem?_set_self hyn, hrowget,
          List.getElem?_set_ne hi]
      · have hj' : y.toNat ≠ j := fun h => hj h.symm
        simp [cellRead, List.getElem?_set_ne hj']
  · intro hout
    unfold MacOSWindowDriver.set_pixel
    rw [if_neg hout]

/-- A concrete 2 × 2 all-black frame buffer, for witnesses. -/
def demoBuf : List (List Color) := [[black, black], [black, black]]

/-- A concrete ready (initialized) 2 × 2 driver, for witnesses. -/
def demoDriver : MacOSWindowDriver :=
  { MacOSWindowDriver.init 2 2 2 with screen := some (), buffer := some demoBuf }

theorem set_pixel_in_range_writes_out_of_range_noop_witness :
    demoDriver.buffer = some demoBuf ∧
    demoBuf.length = demoDriver.height ∧
    (∀ r ∈ demoBuf, r.length = demoDriver.width) ∧
    (((0 ≤ (1 : Int) ∧ (1 : Int) < (demoDriver.width : Int) ∧
        0 ≤ (0 : Int) ∧ (0 : Int) < (demoDriver.height : Int)) →
      ∃ b', MacOSWindowDriver.set_pixel demoDriver pyStart 1 0 (7, 8, 9) =
              some ({ demoDriver with buffer := some b' }, pyStart) ∧
        cellRead b' (1 : Int).toNat (0 : Int).toNat = some (7, 8, 9) ∧
        ∀ i j : Nat, ¬ (i = (1 : Int).toNat ∧ j = (0 : Int).toNat) →
          cellRead b' i j = cellRead demoBuf i j) ∧
    (¬ (0 ≤ (1 : Int) ∧ (1 : Int) < (demoDriver.width : Int) ∧
        0 ≤ (0 : Int) ∧ (0 : Int) < (demoDriver.height : Int)) →
      MacOSWindowDriver.set_pixel demoDriver pyStart 1 0 (7, 8, 9) =
        some (demoDriver, pyStart))) :=
  ⟨rfl, rfl, by decide,
    set_pixel_in_range_writes_out_of_range_noop demoDriver pyStart demoBuf
      rfl rfl (by decide) 1 0 (7, 8, 9)⟩

/-- C5: on an initialized driver (well-formed `height × width` buffer),
`clear()` raises nothing and leaves every in-range buffer cell black; it
does not implicitly call `show()`: the pygame state — in particular the
visible window surface — is returned unchanged. -/
theorem clear_blackens_buffer_without_show (d : MacOSWindowDriver) (st : PyState)
    (b : List (List Color)) (hb : d.buffer = some b)
    (hlen : b.length = d.height) (hrows : ∀ r ∈ b, r.length = d.width) :
    MacOSWindowDriver.clear d st =
      some ({ d with
        buffer := some (List.replicate d.height (List.replicate d.width black)) }, st) ∧
    ∀ i j : Nat, i < d.width → j < d.height →
      cellRead (List.replicate d.height (List.replicate d.width black)) i j =
        some black := by
  refine ⟨clear_eq_of_dims d st b hb hlen hrows, ?_⟩
  intro i j hi hj
  exact cellRead_replicate _ _ _ _ hi hj

theorem clear_blackens_buffer_without_show_witness :
    demoDriver.buffer = some demoBuf ∧
    demoBuf.length = demoDriver.height ∧
    (∀ r ∈ demoBuf, r.length = demoDriver.width) ∧
    (MacOSWindowDriver.clear demoDriver pyStart =
      some ({ demoDriver with
        buffer := some (List.replicate demoDriver.height
          (List.replicate demoDriver.width black)) }, pyStart) ∧
    ∀ i j : Nat, i < demoDriver.width → j < demoDriver.height →
      cellRead (List.replicate demoDriver.height
        (List.replicate demoDriver.width black)) i j = some black) :=
  ⟨rfl, rfl, by decide,
    clear_blackens_buffer_without_show demoDriver pyStart demoBuf rfl rfl (by decide)⟩

/-- C10: on a freshly constructed driver (`initialize()` never called, so
`screen is None`), `show()` returns immediately: no error is raised and the
driver state (including the frame buffer) and the pygame state (window,
events) are untouched. -/
theorem show_uninitialized_noop (w h s : Nat) (st : PyState) :
    MacOSWindowDriver.show (MacOSWindowDriver.init w h s) st =
      some (MacOSWindowDriver.init w h s, st) := rfl

/-- C3 counterexample: from a fresh pygame state, an `initialize()` that
fails at window creation (`set_mode` raises) returns `false`, yet leaves
pygame initialized — the partial allocation made by `pygame.init()` is not
rolled back, so the driver still holds a backend resource. -/
theorem initialize_failure_leaves_pygame_inited :
    ( MacOSWindowDriver.initialize (MacOSWindowDriver.init 2 2 2) pyStart false).2.2
      = false ∧
    ( MacOSWindowDriver.initialize (MacOSWindowDriver.init 2 2 2) pyStart false).2.1.inited
      = true ∧
    pyStart.inited = false := ⟨rfl, rfl, rfl⟩

/-- C3 amended: when window creation fails (the expected failure mode),
`initialize()` catches the exception and returns `false` rather than
raising, and assigns no screen or buffer to the driver — but it does not
roll back the partial allocation: `pygame.init()` has run and pygame remains
initialized until a later `cleanup()`. -/
theorem initialize_failure_returns_false_without_rollback
    (d : MacOSWindowDriver) (st : PyState) :
    MacOSWindowDriver.initialize d st false = (d, { st with inited := true }, false) :=
  rfl

/-- C6 counterexample: after an `initialize()` that returned `false` (window
creation failed), `cleanup()` is not a no-op: pygame was left initialized,
so `pygame.get_init()` is true and `cleanup()` quits pygame, changing the
backend state. -/
theorem cleanup_after_failed_init_not_noop :
    ( MacOSWindowDriver.initialize (MacOSWindowDriver.init 2 2 2) pyStart false).2.2
      = false ∧
    MacOSWindowDriver.cleanup
        ( MacOSWindowDriver.initialize (MacOSWindowDriver.init 2 2 2) pyStart false).1
        ( MacOSWindowDriver.initialize (MacOSWindowDriver.init 2 2 2) pyStart false).2.1
      ≠ (( MacOSWindowDriver.initialize (MacOSWindowDriver.init 2 2 2) pyStart false).1,
         ( MacOSWindowDriver.initialize (MacOSWindowDriver.init 2 2 2) pyStart false).2.1) := by
  refine ⟨rfl, ?_⟩
  intro hcontra
  have : (false : Bool) = true := congrArg (fun p => p.2.inited) hcontra
  simp at this

/-- C6 amended: `cleanup()` never raises (it is total), it is idempotent
(a second call after any `cleanup()` has no further effect), and when
`initialize()` was never called — pygame never initialized — it is a no-op;
after an `initialize()` that returned `false` it is not a no-op but releases
the leftover pygame initialization. -/
theorem cleanup_idempotent_and_safe (d : MacOSWindowDriver) (st : PyState) :
    MacOSWindowDriver.cleanup d ( MacOSWindowDriver.cleanup d st).2 =
      MacOSWindowDriver.cleanup d st ∧
    (st.inited = false → MacOSWindowDriver.cleanup d st = (d, st)) := by
  unfold MacOSWindowDriver.cleanup
  by_cases h : st.inited
  · simp [h]
  · simp [h]

theorem cleanup_idempotent_and_safe_witness :
    (MacOSWindowDriver.cleanup demoDriver
        ( MacOSWindowDriver.cleanup demoDriver pyStart).2 =
      MacOSWindowDriver.cleanup demoDriver pyStart ∧
    (pyStart.inited = false →
      MacOSWindowDriver.cleanup demoDriver pyStart = (demoDriver, pyStart))) :=
  cleanup_idempotent_and_safe demoDriver pyStart

/-- C4, failing input: a ready driver with one pending key event in the
pygame queue.  `show()` calls `pygame.event.get()`, which removes every
pending event from the queue; after `show()` returns, the queue is empty, so
the key event can never be reported by an input driver's `poll()` — despite
the body's own comment that such events are left for the input system. -/
theorem show_consumes_pending_input_events :
    ( MacOSWindowDriver.show demoDriver
        { pyStart with inited := true, events := [PyEvent.key 13] }).map
      (fun p => p.2.events) = some [] ∧
    ({ pyStart with inited := true, events := [PyEvent.key 13] } : PyState).events
      = [PyEvent.key 13] := ⟨rfl, rfl⟩

/-- C7 counterexample: the `InputDriver` abstract base class does not define
a `get_platform_preference` class method — its static capability queries are
only `is_available`, `requires_pairing`, `get_device_class` and
`get_priority`. -/
theorem inputdriver_lacks_platform_preference :
    ¬ ("get_platform_preference" ∈ InputDriver.staticCapabilityQueries) := by
  decide

/-- C7 amended: the `InputDriver` contract exposes the static capability
queries `is_available()` (default true) and `get_priority()` (default 0)
shared with the display contract, plus `get_device_class()` defaulting to
"generic" and `requires_pairing()` defaulting to false, all class-level and
queryable without constructing an instance; unlike the display contract it
does not expose `get_platform_preference()`. -/
theorem inputdriver_static_queries :
    "is_available" ∈ InputDriver.staticCapabilityQueries ∧
    "get_priority" ∈ InputDriver.staticCapabilityQueries ∧
    "get_device_class" ∈ InputDriver.staticCapabilityQueries ∧
    "requires_pairing" ∈ InputDriver.staticCapabilityQueries ∧
    "is_available" ∈ DisplayDriver.staticCapabilityQueries ∧
    "get_priority" ∈ DisplayDriver.staticCapabilityQueries ∧
    "get_platform_preference" ∈ DisplayDriver.staticCapabilityQueries ∧
    ¬ ("get_platform_preference" ∈ InputDriver.staticCapabilityQueries) ∧
    InputDriver.is_available = true ∧
    InputDriver.get_priority = 0 ∧
    InputDriver.get_device_class = "generic" ∧
    InputDriver.requires_pairing = false := by
  refine ⟨?_, ?_, ?_, ?_, ?_, ?_, ?_, ?_, rfl, rfl, rfl, rfl⟩ <;> decide

/-- C9: for a driver constructed with positive `width` and `height`, a
successful `initialize()` returns `true` and leaves the frame buffer a 2-D
grid of exactly `height` rows and `width` columns with every cell black. -/
theorem initialize_builds_black_buffer (w h s : Nat) (st : PyState)
    (hw : 0 < w) (hh : 0 < h) :
    ( MacOSWindowDriver.initialize (MacOSWindowDriver.init w h s) st true).2.2 = true ∧
    ( MacOSWindowDriver.initialize (MacOSWindowDriver.init w h s) st true).1.buffer =
      some (List.replicate h (List.replicate w black)) ∧
    (List.replicate h (List.replicate w black)).length = h ∧
    (∀ r ∈ List.replicate h (List.replicate w black),
      r.length = w ∧ ∀ cell ∈ r, cell = black) := by
  have hrows : ∀ r ∈ List.replicate h (List.replicate w black), r.length = w := by
    intro r hr
    rw [List.eq_of_mem_replicate hr]
    simp
  have hfails : bufAccessFails w h (some (List.replicate h (List.replicate w black))) = false :=
    bufAccessFails_of_dims _ _ _ (by simp) hrows
  have hclear : clearBufAux (List.replicate h (List.replicate w black)) w h =
      List.replicate h (List.replicate w black) :=
    clearBufAux_eq_replicate _ _ _ (by simp) hrows
  refine ⟨?_, ?_, by simp, ?_⟩
  · simp [ MacOSWindowDriver.initialize, MacOSWindowDriver.clear, MacOSWindowDriver.show,
      MacOSWindowDriver.init, hfails, hclear]
  · simp [ MacOSWindowDriver.initialize, MacOSWindowDriver.clear, MacOSWindowDriver.show,
      MacOSWindowDriver.init, hfails, hclear]
  · intro r hr
    rw [List.eq_of_mem_replicate hr]
    exact ⟨by simp, fun cell hc => List.eq_of_mem_replicate hc⟩

theorem initialize_builds_black_buffer_witness :
    0 < 2 ∧
    (( MacOSWindowDriver.initialize (MacOSWindowDriver.init 2 3 2) pyStart true).2.2 = true ∧
    ( MacOSWindowDriver.initialize (MacOSWindowDriver.init 2 3 2) pyStart true).1.buffer =
      some (List.replicate 3 (List.replicate 2 black)) ∧
    (List.replicate 3 (List.replicate 2 black)).length = 3 ∧
    (∀ r ∈ List.replicate 3 (List.replicate 2 black),
      r.length = 2 ∧ ∀ cell ∈ r, cell = black)) :=
  ⟨by decide, initialize_builds_black_buffer 2 3 2 pyStart (by decide) (by decide)⟩

theorem better_irrefl (t : Option String) (c : Candidate) : ¬ better t c c := by
  unfold better
  omega

theorem better_trans (t : Option String) {a b c : Candidate}
    (h1 : better t a b) (h2 : better t b c) : better t a c := by
  unfold better at h1 h2 ⊢
  omega

theorem exists_max (t : Option String) :
    ∀ l : List Candidate, l ≠ [] → ∃ c ∈ l, ∀ d ∈ l, ¬ better t d c := by
  intro l
  induction l with
  | nil => intro h; exact absurd rfl h
  | cons a l ih =>
    intro _
    rcases eq_or_ne l [] with rfl | hne
    · refine ⟨a, List.mem_singleton_self a, ?_⟩
      intro d hd
      rw [List.mem_singleton] at hd
      subst hd
      exact better_irrefl t _
    · obtain ⟨m, hm, hmax⟩ := ih hne
      by_cases hb : better t a m
      · refine ⟨a, List.mem_cons_self a l, ?_⟩
        intro d hd
        rcases List.mem_cons.mp hd with rfl | hd
        · exact better_irrefl t _
        · exact fun hda => hmax d hd (better_trans t hda hb)
      · refine ⟨m, List.mem_cons_of_mem a hm, ?_⟩
        intro d hd
        rcases List.mem_cons.mp hd with rfl | hd
        · exact hb
        · exact hmax d hd

theorem tier_eq_zero_iff (t0 : String) (c : Candidate) :
    tier (some t0) c = 0 ↔ c.platform = some t0 := by
  rcases hp : c.platform with _ | p
  · simp [tier, hp]
  · by_cases h : p = t0 <;> simp [tier, hp, h]

theorem find?_congr_mem {α} (l : List α) (p q : α → Bool)
    (h : ∀ x ∈ l, p x = q x) : l.find? p = l.find? q := by
  induction l with
  | nil => rfl
  | cons a l ih =>
    rw [List.find?_cons, List.find?_cons, h a (List.mem_cons_self a l)]
    cases hq : q a
    · exact ih fun x hx => h x (List.mem_cons_of_mem a hx)
    · rfl

theorem find?_filter_eq {α} (l : List α) (p q : α → Bool) :
    (l.filter p).find? q = l.find? fun x => p x && q x := by
  induction l with
  | nil => rfl
  | cons a l ih =>
    cases hp : p a <;> simp [List.filter_cons, hp, List.find?_cons, ih]

/-- C2 (spec-modelled selector): whenever some available candidate's
platform preference equals the target platform `t0`, the selector's chosen
candidate has platform preference `t0` — even if a platform-agnostic
candidate has a numerically higher priority — the chosen candidate's
priority is maximal among available platform-matching candidates, and it is
the first-declared such candidate with that priority (ties resolve to
declaration order). -/
theorem selector_prefers_platform_match (t0 : String) (cands : List Candidate)
    (hex : ∃ c ∈ cands, c.available = true ∧ c.platform = some t0) :
    ∃ chosen, selectDriver (some t0) cands = some chosen ∧
      chosen.available = true ∧ chosen.platform = some t0 ∧
      (∀ d ∈ cands, d.available = true → d.platform = some t0 →
        d.priority ≤ chosen.priority) ∧
      cands.find? (fun d => d.available &&
          ((d.platform == some t0) && (d.priority == chosen.priority))) = some chosen := by
  obtain ⟨c0, hc0mem, hc0av, hc0pl⟩ := hex
  have hc0 : c0 ∈ cands.filter (fun c => c.available) :=
    List.mem_filter.mpr ⟨hc0mem, hc0av⟩
  have hne : cands.filter (fun c => c.available) ≠ [] := by
    intro h
    rw [h] at hc0
    exact (List.not_mem_nil c0) hc0
  obtain ⟨m, hm, hmax⟩ := exists_max (some t0) (cands.filter (fun c => c.available)) hne
  obtain ⟨chosen, hfind⟩ : ∃ y, (cands.filter (fun c => c.available)).find?
      (fun c => (cands.filter (fun c => c.available)).all
        fun d => ! decide (better (some t0) d c)) = some y := by
    rw [← Option.isSome_iff_exists, List.find?_isSome]
    refine ⟨m, hm, ?_⟩
    rw [List.all_eq_true]
    intro d hd
    simp [hmax d hd]
  have hchosen_mem : chosen ∈ cands.filter (fun c => c.available) :=
    List.mem_of_find?_eq_some hfind
  have hchosen_max : ∀ d ∈ cands.filter (fun c => c.available),
      ¬ better (some t0) d chosen := by
    have hp := List.find?_some hfind
    simp only [List.all_eq_true, Bool.not_eq_true', decide_eq_false_iff_not] at hp
    exact hp
  have hchosen_av : chosen.available = true := (List.mem_filter.mp hchosen_mem).2
  have hchosen_cands : chosen ∈ cands := (List.mem_filter.mp hchosen_mem).1
  have htier : tier (some t0) chosen = 0 := by
    by_contra hnz
    refine hchosen_max c0 hc0 (Or.inl ?_)
    have h0 : tier (some t0) c0 = 0 := (tier_eq_zero_iff t0 c0).mpr hc0pl
    omega
  have hpl : chosen.platform = some t0 := (tier_eq_zero_iff t0 chosen).mp htier
  have hprio : ∀ d ∈ cands, d.available = true → d.platform = some t0 →
      d.priority ≤ chosen.priority := by
    intro d hd hav hdpl
    have hdav : d ∈ cands.filter (fun c => c.available) :=
      List.mem_filter.mpr ⟨hd, hav⟩
    have hnb := hchosen_max d hdav
    have htd : tier (some t0) d = 0 := (tier_eq_zero_iff t0 d).mpr hdpl
    unfold better at hnb
    omega
  refine ⟨chosen, ?_, hchosen_av, hpl, hprio, ?_⟩
  · simpa [selectDriver] using hfind
  · have hpointwise : ∀ d ∈ cands.filter (fun c => c.available),
        ((cands.filter (fun c => c.available)).all
          fun e => ! decide (better (some t0) e d)) =
        ((d.platform == some t0) && (d.priority == chosen.priority)) := by
      intro d hd
      rw [Bool.eq_iff_iff]
      constructor
      · intro hall
        have hmax' : ∀ e ∈ cands.filter (fun c => c.available),
            ¬ better (some t0) e d := by
          simp only [List.all_eq_true, Bool.not_eq_true',
            decide_eq_false_iff_not] at hall
          exact hall
        have htd : tier (some t0) d = 0 := by
          by_contra hnz
          exact hmax' chosen hchosen_mem (Or.inl (by omega))
        have hdpl : d.platform = some t0 := (tier_eq_zero_iff t0 d).mp htd
        have h1 : d.priority ≤ chosen.priority := by
          have := hchosen_max d hd
          unfold better at this
          omega
        have h2 : chosen.priority ≤ d.priority := by
          have := hmax' chosen hchosen_mem
          unfold better at this
          omega
        simp [hdpl, Nat.le_antisymm h1 h2]
      · intro hq
        rw [Bool.and_eq_true] at hq
        have hdpl : d.platform = some t0 := by
          have := hq.1
          rwa [beq_iff_eq] at this
        have hdpr : d.priority = chosen.priority := by
          have := hq.2
          rwa [beq_iff_eq] at this
        rw [List.all_eq_true]
        intro e he
        have hne' := hchosen_max e he
        have htd : tier (some t0) d = 0 := (tier_eq_zero_iff t0 d).mpr hdpl
        simp only [Bool.not_eq_true', decide_eq_false_iff_not]
        unfold better at hne' ⊢
        omega
    rw [← find?_filter_eq cands (fun c => c.available)
        (fun d => (d.platform == some t0) && (d.priority == chosen.priority))]
    rw [← find?_congr_mem _ _ _ hpointwise]
    exact hfind

theorem selector_prefers_platform_match_witness :
    (∃ c ∈ [({ name := "Generic Display", available := true, platform := none,
               priority := 99 } : Candidate),
            ({ name := "macOS Window (Pygame)", available := true,
               platform := some "macos", priority := 5 } : Candidate)],
        c.available = true ∧ c.platform = some "macos") ∧
    (∃ chosen, selectDriver (some "macos")
        [({ name := "Generic Display", available := true, platform := none,
            priority := 99 } : Candidate),
         ({ name := "macOS Window (Pygame)", available := true,
            platform := some "macos", priority := 5 } : Candidate)] = some chosen ∧
      chosen.available = true ∧ chosen.platform = some "macos" ∧
      (∀ d ∈ [({ name := "Generic Display", available := true, platform := none,
                 priority := 99 } : Candidate),
              ({ name := "macOS Window (Pygame)", available := true,
                 platform := some "macos", priority := 5 } : Candidate)],
          d.available = true → d.platform = some "macos" →
        d.priority ≤ chosen.priority) ∧
      [({ name := "Generic Display", available := true, platform := none,
          priority := 99 } : Candidate),
       ({ name := "macOS Window (Pygame)", available := true,
          platform := some "macos", priority := 5 } : Candidate)].find?
        (fun d => d.available &&
          ((d.platform == some "macos") && (d.priority == chosen.priority))) =
        some chosen) :=
  ⟨by decide, selector_prefers_platform_match "macos" _ (by decide)⟩

/-- The selector-facing descriptor of a platform-agnostic fallback display
driver built from the `DisplayDriver` base-class defaults: priority 0, no
platform preference. -/
def genericFallback : Candidate :=
  { name := "Generic Display"
  , available := true
  , platform := DisplayDriver.get_platform_preference
  , priority := DisplayDriver.get_priority }

/-- C8: the reference window driver declares `get_priority() = 50` and the
platform preference "macos", so (under the spec-modelled selector) it wins
over the priority-0 platform-agnostic `DisplayDriver`-default fallback when
the target platform is "macos", and loses to any available platform-agnostic
candidate, whatever its priority, when the target platform is any other
value. -/
theorem macos_driver_priority_and_ranking (t : String) (ht : t ≠ "macos")
    (nm : String) (p : Nat) :
    MacOSWindowDriver.get_priority = 50 ∧
    MacOSWindowDriver.get_platform_preference = some "macos" ∧
    selectDriver (some "macos") [macCandidate true, genericFallback] =
      some (macCandidate true) ∧
    selectDriver (some t)
        [macCandidate true,
         { name := nm, available := true, platform := none, priority := p }] =
      some { name := nm, available := true, platform := none, priority := p } := by
  refine ⟨rfl, rfl, by decide, ?_⟩
  have hne : "macos" ≠ t := fun h => ht h.symm
  simp [selectDriver, better, tier, macCandidate, MacOSWindowDriver.get_platform_preference,
    MacOSWindowDriver.get_priority, hne, List.filter_cons, List.find?_cons]

theorem macos_driver_priority_and_ranking_witness :
    ("linux" : String) ≠ "macos" ∧
    (MacOSWindowDriver.get_priority = 50 ∧
     MacOSWindowDriver.get_platform_preference = some "macos" ∧
     selectDriver (some "macos") [macCandidate true, genericFallback] =
       some (macCandidate true) ∧
     selectDriver (some "linux")
         [macCandidate true,
          { name := "Terminal", available := true, platform := none, priority := 90 }] =
       some { name := "Terminal", available := true, platform := none, priority := 90 }) :=
  ⟨by decide, macos_driver_priority_and_ranking "linux" (by decide) "Terminal" 90⟩
